import Mathlib

/-!
Shallow embedding of the worktree-cli lifecycle core (src/build/utils/git.js,
src/build/commands/remove.js, src/build/commands/open.js and the cd handler)
and proofs about the frozen specification claims.

External subprocess calls (`execa`) are modelled by environment records that
hold the outcome of each call in program order: a call that resolves is an
`Except.ok` carrying its stdout (or an `ExecResult` when `reject: false` is
used, in which case a non-zero exit still resolves), and a call that throws is
an `Except.error`.  Side-effecting commands are additionally recorded in an
explicit trace list, in the order the program issues them.
-/

namespace Worktree

/-- WorktreeRecord as built by `getWorktrees` in src/build/utils/git.js:
the object literal initialised per block and mutated by the line parser. -/
structure WorktreeInfo where
  path : String
  head : String
  branch : Option String
  detached : Bool
  locked : Bool
  lockReason : Option String
  prunable : Bool
  pruneReason : Option String
  isMain : Bool
  bare : Bool
  deriving Repr, DecidableEq

/-- JavaScript string primitives are modelled by structurally recursive
functions on the character list of the string (`String.data`), so that every
definition evaluates inside the kernel.  `trimList` is the whitespace
stripping of `String.prototype.trim` restricted to the ASCII whitespace git
output can contain. -/
def trimList (l : List Char) : List Char :=
  ((l.dropWhile Char.isWhitespace).reverse.dropWhile Char.isWhitespace).reverse

/-- JavaScript `String.prototype.trim`. -/
def jsTrim (s : String) : String :=
  String.mk (trimList s.data)

/-- JavaScript `String.prototype.startsWith`. -/
def startsWithStr (s pre : String) : Bool :=
  pre.data.isPrefixOf s.data

/-- JavaScript `String.prototype.substring(n)`: drop the first `n`
characters. -/
def dropChars (s : String) (n : Nat) : String :=
  String.mk (s.data.drop n)

/-- Left-to-right, non-overlapping split on a non-empty separator (the
semantics shared by `String.prototype.split` with a string argument and
Lean's `String.splitOn`), written with explicit fuel so it is structurally
recursive; the callers pass `length + 1` fuel, which always suffices. -/
def splitOnFuel (pat : List Char) : Nat → List Char → List Char → List (List Char)
  | 0, l, acc => [acc.reverse ++ l]
  | fuel + 1, l, acc =>
    match l with
    | [] => [acc.reverse]
    | c :: rest =>
      if pat.isPrefixOf (c :: rest) then
        acc.reverse :: splitOnFuel pat fuel ((c :: rest).drop pat.length) []
      else splitOnFuel pat fuel rest (c :: acc)

/-- JavaScript `String.prototype.split` with a non-empty string separator. -/
def jsSplitOn (s pat : String) : List String :=
  (splitOnFuel pat.data (s.data.length + 1) s.data []).map String.mk

/-- Occurrence of `pat` as a contiguous run of `l` (the test behind
`String.prototype.includes`). -/
def listHasInfix (pat : List Char) : List Char → Bool
  | [] => decide (pat = [])
  | c :: rest => pat.isPrefixOf (c :: rest) || listHasInfix pat rest

/-- JavaScript `String.prototype.replace` with a string pattern replaces only
the first occurrence; this mirrors that (used for `refs/heads/` stripping). -/
def replaceFirst (s pat repl : String) : String :=
  match jsSplitOn s pat with
  | [] => s
  | [x] => x
  | x :: rest =>
    x ++ repl ++ String.mk (List.intercalate pat.data (rest.map String.data))

/-- The fresh record each parsed block starts from (`const info = {...}` in
`getWorktrees`); `isMain` is seeded from the `isFirstWorktree` flag. -/
def initInfo (isFirst : Bool) : WorktreeInfo :=
  { path := "", head := "", branch := none, detached := false, locked := false,
    lockReason := none, prunable := false, pruneReason := none,
    isMain := isFirst, bare := false }

/-- One iteration of the line loop in `getWorktrees`: fixed-prefix matching in
source order; unmatched lines leave the record unchanged. -/
def applyLine (info : WorktreeInfo) (line : String) : WorktreeInfo :=
  if startsWithStr line "worktree " then { info with path := dropChars line 9 }
  else if startsWithStr line "HEAD " then { info with head := dropChars line 5 }
  else if startsWithStr line "branch " then
    { info with branch := some (replaceFirst (dropChars line 7) "refs/heads/" "") }
  else if line = "detached" then { info with detached := true }
  else if line = "bare" then { info with bare := true }
  else if line = "locked" then { info with locked := true }
  else if startsWithStr line "locked " then
    { info with locked := true, lockReason := some (dropChars line 7) }
  else if line = "prunable" then { info with prunable := true }
  else if startsWithStr line "prunable " then
    { info with prunable := true, pruneReason := some (dropChars line 9) }
  else info

/-- Parse one blank-line-delimited block of `git worktree list --porcelain`
output (the `for (const line of lines)` loop of `getWorktrees`). -/
def parseBlock (isFirst : Bool) (block : String) : WorktreeInfo :=
  (jsSplitOn block "\n").foldl applyLine (initInfo isFirst)

/-- The blocks of the porcelain output: split on the double newline and keep
only blocks whose trimmed text is non-empty. -/
def worktreeBlocks (stdout : String) : List String :=
  (jsSplitOn stdout "\n\n").filter (fun b => jsTrim b ≠ "")

/-- The block loop of `getWorktrees`: the first block is parsed with
`isFirstWorktree = true`; a parsed record is kept only when its `path` is
non-empty; the flag drops to `false` after every block either way. -/
def parseBlocks : Bool → List String → List WorktreeInfo
  | _, [] => []
  | isFirst, b :: rest =>
    if (parseBlock isFirst b).path ≠ "" then
      parseBlock isFirst b :: parseBlocks false rest
    else parseBlocks false rest

/-- Body of `getWorktrees` applied to the stdout of the worktree-list query:
empty (after trimming) output yields the empty list. -/
def parseWorktreeList (stdout : String) : List WorktreeInfo :=
  if jsTrim stdout = "" then [] else parseBlocks true (worktreeBlocks stdout)

/-- `getWorktrees`: `none` models the query throwing (not a repository,
command error), which the catch block turns into `[]`. -/
def getWorktrees (queryResult : Option String) : List WorktreeInfo :=
  match queryResult with
  | none => []
  | some out => parseWorktreeList out

/-- Filesystem collaborator used by `findWorktreeByPath`: `node:path.resolve`
(always succeeds) and `node:fs/promises.realpath` (throws when the path does
not exist, modelled by `none`). -/
structure FsEnv where
  realpath : String → Option String
  resolvePath : String → String

/-- Resolution of the lookup token in `findWorktreeByPath`:
`realpath(resolve(targetPath))`, falling back to `resolve(targetPath)` when
`realpath` throws. -/
def resolveTargetPath (fs : FsEnv) (targetPath : String) : String :=
  match fs.realpath (fs.resolvePath targetPath) with
  | some rp => rp
  | none => fs.resolvePath targetPath

/-- Resolution of a stored worktree path inside the loop of
`findWorktreeByPath`: `realpath(wt.path)` with fallback `resolve(wt.path)`. -/
def worktreeRealPath (fs : FsEnv) (wtPath : String) : String :=
  match fs.realpath wtPath with
  | some rp => rp
  | none => fs.resolvePath wtPath

/-- The loop of `findWorktreeByPath` over the records returned by
`getWorktrees`: the first record whose real path equals the resolved target. -/
def findWorktreeByPath (fs : FsEnv) (worktrees : List WorktreeInfo)
    (targetPath : String) : Option WorktreeInfo :=
  worktrees.find? (fun wt => worktreeRealPath fs wt.path == resolveTargetPath fs targetPath)

/-- `findWorktreeByBranch`: first record whose `branch` field equals the short
branch name (a `null` branch never equals a string argument). -/
def findWorktreeByBranch (worktrees : List WorktreeInfo) (branch : String) :
    Option WorktreeInfo :=
  worktrees.find? (fun wt => wt.branch == some branch)

/-! ## Dirty-State Guard (`stashChanges`, `applyAndDropStash`, `popStash`) -/

/-- The subprocess steps `stashChanges` can issue, in program order. -/
inductive StashStep where
  | status
  | addAll
  | create (message : Option String)
  | resetHard
  | cleanUntracked
  deriving Repr, DecidableEq

/-- Outcomes of the five subprocess calls inside `stashChanges`; an
`Except.error` models the call throwing (caught by the surrounding catch). -/
structure StashEnv where
  statusResult : Except Unit String
  addResult : Except Unit Unit
  createResult : Except Unit String
  resetResult : Except Unit Unit
  cleanResult : Except Unit Unit

/-- Body of `stashChanges`: returns the stash hash (`some`) or `null` (`none`)
together with the trace of subprocess steps issued before returning.  Any
thrown step ends the trace there and the catch returns `null`. -/
def stashChanges (env : StashEnv) (message : Option String) :
    Option String × List StashStep :=
  match env.statusResult with
  | .error _ => (none, [.status])
  | .ok statusOutput =>
    if jsTrim statusOutput = "" then (none, [.status])
    else
      match env.addResult with
      | .error _ => (none, [.status, .addAll])
      | .ok _ =>
        match env.createResult with
        | .error _ => (none, [.status, .addAll, .create message])
        | .ok out =>
          let stashHash := jsTrim out
          if stashHash = "" then (none, [.status, .addAll, .create message])
          else
            match env.resetResult with
            | .error _ => (none, [.status, .addAll, .create message, .resetHard])
            | .ok _ =>
              match env.cleanResult with
              | .error _ =>
                (none, [.status, .addAll, .create message, .resetHard, .cleanUntracked])
              | .ok _ =>
                (some stashHash,
                 [.status, .addAll, .create message, .resetHard, .cleanUntracked])

/-- The stash commands a restore-side function can issue. -/
inductive StashRestoreCmd where
  | applyByHash (hash : String)
  | dropByRef (ref : String)
  | pop
  deriving Repr, DecidableEq

/-- True for commands that address the shared stash stack by position. -/
def StashRestoreCmd.isPositional : StashRestoreCmd → Bool
  | .pop => true
  | _ => false

/-- True for commands that drop a stash entry. -/
def StashRestoreCmd.isDrop : StashRestoreCmd → Bool
  | .dropByRef _ => true
  | _ => false

/-- True when the command addresses the stash only through the given hash. -/
def StashRestoreCmd.addressesHash (h : String) : StashRestoreCmd → Bool
  | .applyByHash x => x == h
  | .dropByRef x => x == h
  | .pop => false

/-- `applyAndDropStash`: issues `git stash apply <stashHash>` and returns
`true` when it succeeds, `false` when it throws.  No other command is run. -/
def applyAndDropStash (stashHash : String) (applyResult : Except Unit Unit) :
    Bool × List StashRestoreCmd :=
  match applyResult with
  | .ok _ => (true, [.applyByHash stashHash])
  | .error _ => (false, [.applyByHash stashHash])

/-- `popStash` (deprecated in the source): issues the positional
`git stash pop`. -/
def popStash (popResult : Except Unit Unit) : Bool × List StashRestoreCmd :=
  match popResult with
  | .ok _ => (true, [.pop])
  | .error _ => (false, [.pop])

/-! ## Upstream-remote resolution (`getUpstreamRemote`) -/

/-- Result of an `execa` call made with `reject: false`: a non-zero exit still
resolves, carrying the exit code and stdout. -/
structure ExecResult where
  exitCode : Int
  stdout : String
  deriving Repr, DecidableEq

/-- Outcomes of the calls inside `getUpstreamRemote`.  The two tracking
queries use `reject: false`, so they throw (`Except.error`) only on a
spawn-level failure, never merely because the branch has no upstream. -/
structure UpstreamEnv where
  mainUpstream : Except Unit ExecResult
  masterUpstream : Except Unit ExecResult
  remotesResult : Except Unit String

/-- The regex step `^([^\/]+)\/` applied to a trimmed tracking ref
(`refs/remotes/...` abbreviated, e.g. `upstream/main`): the remote name is the
non-empty run before the first slash, provided a slash follows it. -/
def remoteFromTrackingRef (s : String) : Option String :=
  let t := jsTrim s
  if t ≠ "" then
    let before := t.data.takeWhile (fun c => c != '/')
    if before.length ≠ 0 ∧ before.length < t.data.length then some (String.mk before)
    else none
  else none

/-- Strategies 2 and 3 of `getUpstreamRemote`: preferred names among the
configured remotes, then the first remote, with `origin` as the fallback when
the listing throws or is empty. -/
def upstreamFromRemoteList (env : UpstreamEnv) : String :=
  match env.remotesResult with
  | .error _ => "origin"
  | .ok remotesOutput =>
    let remotes := ((jsSplitOn remotesOutput "\n").map jsTrim).filter (fun r => r ≠ "")
    match remotes with
    | [] => "origin"
    | r0 :: _ =>
      if remotes.contains "origin" then "origin"
      else if remotes.contains "upstream" then "upstream"
      else r0

/-- `getUpstreamRemote`.  The `master` attempt lives in the catch handler of
the `main` query, so it runs only when that query throws at the spawn level;
a resolved-but-unparseable `main` result falls directly to strategy 2. -/
def getUpstreamRemote (env : UpstreamEnv) : String :=
  match env.mainUpstream with
  | .ok r =>
    match remoteFromTrackingRef r.stdout with
    | some remote => remote
    | none => upstreamFromRemoteList env
  | .error _ =>
    match env.masterUpstream with
    | .ok r =>
      match remoteFromTrackingRef r.stdout with
      | some remote => remote
      | none => upstreamFromRemoteList env
    | .error _ => upstreamFromRemoteList env

/-! ## Provider detection (`getRemoteHostname`, `detectGitProvider`)

The hostname parser is translated to `List Char` so that its regexes become
explicit character scans; the `String` wrappers keep the source signatures. -/

/-- Test for `remoteUrl.startsWith("git@")`. -/
def hasGitAtPre : List Char → Bool
  | 'g' :: 'i' :: 't' :: '@' :: _ => true
  | _ => false

/-- Test for `remoteUrl.startsWith("ssh://")`. -/
def hasSshPre : List Char → Bool
  | 's' :: 's' :: 'h' :: ':' :: '/' :: '/' :: _ => true
  | _ => false

/-- Test for `remoteUrl.startsWith("http://")`. -/
def hasHttpPre : List Char → Bool
  | 'h' :: 't' :: 't' :: 'p' :: ':' :: '/' :: '/' :: _ => true
  | _ => false

/-- Test for `remoteUrl.startsWith("https://")`. -/
def hasHttpsPre : List Char → Bool
  | 'h' :: 't' :: 't' :: 'p' :: 's' :: ':' :: '/' :: '/' :: _ => true
  | _ => false

/-- The run of characters a hostname capture `[^/:]+` can take. -/
def takeHostChars (l : List Char) : List Char :=
  l.takeWhile (fun c => c != '/' && c != ':')

/-- The regex `^git@([^:]+):` on the text after `git@`: a non-empty run of
non-colon characters followed by a colon. -/
def scpHostname (rest : List Char) : Option (List Char) :=
  let before := rest.takeWhile (fun c => c != ':')
  if before.length ≠ 0 ∧ before.length < rest.length then some before else none

/-- The regex `^ssh:\/\/(?:[^@]+@)?([^/:]+)` on the text after `ssh://`: the
optional user group consumes up to the first `@` when one follows at least one
character; if the capture then fails the engine backtracks and retries without
the group. -/
def sshHostname (rest : List Char) : Option (List Char) :=
  let beforeAt := rest.takeWhile (fun c => c != '@')
  if beforeAt.length ≠ 0 ∧ beforeAt.length < rest.length then
    let afterAt := rest.drop (beforeAt.length + 1)
    let h := takeHostChars afterAt
    if h ≠ [] then some h
    else
      let h2 := takeHostChars rest
      if h2 ≠ [] then some h2 else none
  else
    let h2 := takeHostChars rest
    if h2 ≠ [] then some h2 else none

/-- Models `new URL(remoteUrl).hostname` for an `http(s)` URL (the WHATWG
parser, restricted to the cases a git remote can present): the authority runs
to the first `/`, `?` or `#`; userinfo up to the last `@` is removed; a port
after `:` is removed; an empty host makes the constructor throw (`none`).
Case-lowering is applied by the caller together with the other branches. -/
def urlHostname (afterScheme : List Char) : Option (List Char) :=
  let authority := afterScheme.takeWhile (fun c => c != '/' && c != '?' && c != '#')
  let hostPort := (authority.reverse.takeWhile (fun c => c != '@')).reverse
  let host := hostPort.takeWhile (fun c => c != ':')
  if host = [] then none else some host

/-- `getRemoteHostname` on the character list of the URL: the three prefix
branches in source order, each lowercasing its extracted hostname, with
`none` when no branch matches (or URL construction throws). -/
def getRemoteHostnameCore (url : List Char) : Option (List Char) :=
  let step1 := if hasGitAtPre url then scpHostname (url.drop 4) else none
  match step1 with
  | some h => some (h.map Char.toLower)
  | none =>
    let step2 := if hasSshPre url then sshHostname (url.drop 6) else none
    match step2 with
    | some h => some (h.map Char.toLower)
    | none =>
      let step3 :=
        if hasHttpPre url then urlHostname (url.drop 7)
        else if hasHttpsPre url then urlHostname (url.drop 8)
        else none
      match step3 with
      | some h => some (h.map Char.toLower)
      | none => none

/-- `getRemoteHostname` (String wrapper). -/
def getRemoteHostname (remoteUrl : String) : Option String :=
  (getRemoteHostnameCore remoteUrl.data).map (fun l => String.mk l)

/-- The regex test `/^gitlab\.[a-z.]+$/` used by `detectGitProvider`: the
literal `gitlab.` followed by a non-empty run in which every character is a
lowercase ASCII letter or a dot. -/
def gitlabHostTest (h : List Char) : Bool :=
  ['g', 'i', 't', 'l', 'a', 'b', '.'].isPrefixOf h &&
    (let rest := h.drop 7
     rest.length != 0 && rest.all (fun c => (decide ('a' ≤ c) && decide (c ≤ 'z')) || c == '.'))

/-- The hostname classification at the end of `detectGitProvider`. -/
def classifyHostname (hostname : String) : Option String :=
  if hostname = "github.com" then some "gh"
  else if hostname = "gitlab.com" ∨ gitlabHostTest hostname.data then some "glab"
  else none

/-- `detectGitProvider` applied to the already-trimmed remote URL. -/
def detectGitProviderOfUrl (remoteUrl : String) : Option String :=
  match getRemoteHostname remoteUrl with
  | none => none
  | some hostname => classifyHostname hostname

/-- `detectGitProvider` given the outcome of `git remote get-url` (an
`Except.error` models the call throwing, caught and turned into `null`). -/
def detectGitProvider (remoteUrlResult : Except Unit String) : Option String :=
  match remoteUrlResult with
  | .error _ => none
  | .ok stdout => detectGitProviderOfUrl (jsTrim stdout)

/-! ## Removal flow (`removeWorktreeHandler`) and the cd/open resolver

`withSpinner` (src/build/utils/spinner.js, a display wrapper) is treated as
transparent execution of its body: `remove.js` relies on the wrapped command's
error object reaching its own catch, so the wrapper propagates errors. -/

/-- Outcome of a `node:fs/promises.stat` call on the user token. -/
inductive StatResult where
  | dir
  | file
  | enoent
  | errored
  deriving Repr, DecidableEq

/-- Terminal outcomes of the remove handler (each `process.exit` site and the
normal return get one label). -/
inductive RemoveOutcome where
  | notARepo
  | selectionCancelled
  | notFound
  | mainRefused
  | lockedRefused
  | confirmCancelled
  | forceRemoveDeclined
  | removed
  | failed
  deriving Repr, DecidableEq

/-- The repository-mutating commands the remove handler can issue. -/
inductive RemoveEffect where
  | worktreeRemove (force : Bool) (path : String)
  | removeDir (path : String)
  | branchDelete (force : Bool) (branch : String)
  deriving Repr, DecidableEq

/-- JavaScript `String.prototype.includes`. -/
def includesSubstr (s pat : String) : Bool :=
  listHasInfix pat.data s.data

/-- Outcomes of the external calls and prompts of `removeWorktreeHandler`, in
program order. -/
structure RemoveEnv where
  insideWorkTree : Bool
  worktrees : List WorktreeInfo
  fs : FsEnv
  statTok : StatResult
  selection : Option WorktreeInfo
  isTTY : Bool
  confirmRemoval : Bool
  removeResult : Except String Unit
  confirmForceRemove : Bool
  forceRemoveResult : Except String Unit
  targetDirPresent : Bool
  confirmBranchDelete : Bool
  branchDeleteResult : Except String Unit
  confirmForceBranchDelete : Bool
  forceBranchDeleteResult : Except String Unit

/-- Result of a resolver: the interactive selection can be cancelled, a token
can resolve to a record, or nothing matches. -/
inductive ResolveResult where
  | cancelled
  | found (wt : WorktreeInfo)
  | notFound
  deriving Repr, DecidableEq

/-- Target resolution of `removeWorktreeHandler` (lines 12-43 of remove.js):
interactive selection when the token is empty; otherwise path lookup when the
token stats to a directory (all stat errors are swallowed), then branch
lookup.  There is no embedded-marker synthesis step. -/
def resolveRemoveTarget (pathOrBranch : String) (env : RemoveEnv) : ResolveResult :=
  if pathOrBranch = "" then
    match env.selection with
    | none => .cancelled
    | some wt => .found wt
  else
    let byPath :=
      match env.statTok with
      | .dir => findWorktreeByPath env.fs env.worktrees pathOrBranch
      | _ => none
    match byPath with
    | some wt => .found wt
    | none =>
      match findWorktreeByBranch env.worktrees pathOrBranch with
      | some wt => .found wt
      | none => .notFound

/-- The tail of the remove handler after git metadata removal succeeded:
best-effort physical directory deletion, then the interactive local-branch
deletion offer with its not-fully-merged force escalation. -/
def afterMetadataRemoval (target : WorktreeInfo) (env : RemoveEnv)
    (effs : List RemoveEffect) : RemoveOutcome × List RemoveEffect :=
  let effs := effs ++ (if env.targetDirPresent then [.removeDir target.path] else [])
  let nonInteractive := !env.isTTY
  match target.branch with
  | none => (.removed, effs)
  | some b =>
    if !nonInteractive then
      if env.confirmBranchDelete then
        match env.branchDeleteResult with
        | .ok _ => (.removed, effs ++ [.branchDelete false b])
        | .error stderr =>
          if includesSubstr stderr "not fully merged" then
            if env.confirmForceBranchDelete then
              match env.forceBranchDeleteResult with
              | .ok _ => (.removed, effs ++ [.branchDelete false b, .branchDelete true b])
              | .error _ => (.failed, effs ++ [.branchDelete false b, .branchDelete true b])
            else (.removed, effs ++ [.branchDelete false b])
          else (.removed, effs ++ [.branchDelete false b])
      else (.removed, effs)
    else (.removed, effs)

/-- The remove handler from the point where the target record is resolved
(lines 44-131 of remove.js): the main-worktree refusal, the locked gate, the
confirmation prompt, the removal attempt with its modified/untracked-files
force fallback, and the post-removal steps. -/
def removeResolvedWorktree (target : WorktreeInfo) (force : Bool) (env : RemoveEnv) :
    RemoveOutcome × List RemoveEffect :=
  if target.isMain then (.mainRefused, [])
  else if target.locked && !force then (.lockedRefused, [])
  else
    let nonInteractive := !env.isTTY
    if !force && !nonInteractive && !env.confirmRemoval then (.confirmCancelled, [])
    else
      match env.removeResult with
      | .ok _ => afterMetadataRemoval target env [.worktreeRemove force target.path]
      | .error stderr =>
        if includesSubstr stderr "modified or untracked files" && !force then
          if env.confirmForceRemove then
            match env.forceRemoveResult with
            | .ok _ =>
              afterMetadataRemoval target env
                [.worktreeRemove force target.path, .worktreeRemove true target.path]
            | .error _ =>
              (.failed, [.worktreeRemove force target.path, .worktreeRemove true target.path])
          else (.forceRemoveDeclined, [.worktreeRemove force target.path])
        else (.failed, [.worktreeRemove force target.path])

/-- `removeWorktreeHandler`: repository check, target resolution, then the
resolved-target flow. -/
def removeWorktreeHandler (pathOrBranch : String) (force : Bool) (env : RemoveEnv) :
    RemoveOutcome × List RemoveEffect :=
  if !env.insideWorkTree then (.notARepo, [])
  else
    match resolveRemoveTarget pathOrBranch env with
    | .cancelled => (.selectionCancelled, [])
    | .notFound => (.notFound, [])
    | .found target => removeResolvedWorktree target force env

/-- Terminal outcomes of the cd/open target resolution. -/
inductive CdResolveResult where
  | cancelled
  | found (wt : WorktreeInfo)
  | notADirectory
  | notAWorktree
  | branchNotFound
  | statFailed
  deriving Repr, DecidableEq

/-- The minimal ad-hoc record the cd/open resolvers synthesize for a directory
with an embedded `.git` marker that the structured query did not enumerate. -/
def syntheticWorktree (p : String) : WorktreeInfo :=
  { path := p, head := "", branch := none, detached := false, locked := false,
    lockReason := none, prunable := false, pruneReason := none,
    isMain := false, bare := false }

/-- Outcomes of the external calls of the cd/open resolution phase. -/
structure CdEnv where
  worktrees : List WorktreeInfo
  fs : FsEnv
  statTok : StatResult
  hasGitMarker : Bool
  selection : Option WorktreeInfo

/-- Target resolution of `cdWorktreeHandler` (and, identically,
`openWorktreeHandler`): a directory token that matches no known worktree path
is probed for an embedded `.git` marker and synthesized into an ad-hoc record;
the branch fallback runs only when the token does not exist on disk
(`ENOENT`); a non-`ENOENT` stat error propagates to the outer catch. -/
def resolveCdTarget (pathOrBranch : String) (env : CdEnv) : CdResolveResult :=
  if pathOrBranch = "" then
    match env.selection with
    | none => .cancelled
    | some wt => .found wt
  else
    match env.statTok with
    | .dir =>
      match findWorktreeByPath env.fs env.worktrees pathOrBranch with
      | some wt => .found wt
      | none =>
        if env.hasGitMarker then
          .found (syntheticWorktree (env.fs.resolvePath pathOrBranch))
        else .notAWorktree
    | .file => .notADirectory
    | .enoent =>
      match findWorktreeByBranch env.worktrees pathOrBranch with
      | some wt => .found wt
      | none => .branchNotFound
    | .errored => .statFailed

/-! ## Concrete instances used by witnesses and counterexamples -/

/-- A filesystem with no symlinks: every path is its own real path. -/
def fsId : FsEnv := { realpath := fun p => some p, resolvePath := fun p => p }

/-- A filesystem where `/var` is a symlink to `/private/var` (the macOS
situation the source comments describe). -/
def fsSym : FsEnv :=
  { realpath := fun p =>
      if p = "/var/wt" then some "/private/var/wt"
      else if p = "/private/var/wt" then some "/private/var/wt"
      else none,
    resolvePath := fun p => p }

/-- A main-worktree record. -/
def wtMainRecord : WorktreeInfo :=
  { path := "/repo/main", head := "1111111", branch := some "main",
    detached := false, locked := false, lockReason := none,
    prunable := false, pruneReason := none, isMain := true, bare := false }

/-- A record registered under the symlinked path `/var/wt`. -/
def wtVarRecord : WorktreeInfo :=
  { path := "/var/wt", head := "2222222", branch := some "feat",
    detached := false, locked := false, lockReason := none,
    prunable := false, pruneReason := none, isMain := false, bare := false }

/-- Remove-handler environment whose interactive selection yields the main
worktree and whose token lookups run over a single main record. -/
def removeEnvMain : RemoveEnv :=
  { insideWorkTree := true, worktrees := [wtMainRecord], fs := fsId,
    statTok := .enoent, selection := some wtMainRecord, isTTY := true,
    confirmRemoval := true, removeResult := .ok (), confirmForceRemove := false,
    forceRemoveResult := .ok (), targetDirPresent := true,
    confirmBranchDelete := false, branchDeleteResult := .ok (),
    confirmForceBranchDelete := false, forceBranchDeleteResult := .ok () }

/-- Remove-handler environment for a token that stats to an existing directory
(`/repo/bare-wt`) matching no known worktree path and no branch. -/
def removeEnvBare : RemoveEnv :=
  { insideWorkTree := true, worktrees := [wtMainRecord], fs := fsId,
    statTok := .dir, selection := none, isTTY := true,
    confirmRemoval := true, removeResult := .ok (), confirmForceRemove := false,
    forceRemoveResult := .ok (), targetDirPresent := true,
    confirmBranchDelete := false, branchDeleteResult := .ok (),
    confirmForceBranchDelete := false, forceBranchDeleteResult := .ok () }

/-- The same situation as `removeEnvBare` seen by the cd/open resolver, with
the embedded `.git` marker present in the directory. -/
def cdEnvBare : CdEnv :=
  { worktrees := [wtMainRecord], fs := fsId, statTok := .dir,
    hasGitMarker := true, selection := none }

/-- Stash environment of a clean worktree (empty `git status --porcelain`). -/
def stashEnvCleanW : StashEnv :=
  { statusResult := .ok "", addResult := .ok (), createResult := .ok "deadbeef",
    resetResult := .ok (), cleanResult := .ok () }

/-- Stash environment of a dirty worktree where `git stash create` prints no
hash. -/
def stashEnvNoHashW : StashEnv :=
  { statusResult := .ok " M file.txt", addResult := .ok (), createResult := .ok "",
    resetResult := .ok (), cleanResult := .ok () }

/-- Stash environment of a dirty worktree where every step succeeds. -/
def stashEnvOkW : StashEnv :=
  { statusResult := .ok " M file.txt", addResult := .ok (),
    createResult := .ok "deadbeef\n", resetResult := .ok (), cleanResult := .ok () }

/-- Upstream environment in which `main` has no upstream (the query resolves
with a non-zero exit because of `reject: false`), `master` tracks the remote
`upstream`, and both canonical remote names are configured. -/
def upstreamEnvMasterTracked : UpstreamEnv :=
  { mainUpstream := .ok { exitCode := 128, stdout := "" },
    masterUpstream := .ok { exitCode := 0, stdout := "upstream/master" },
    remotesResult := .ok "origin\nupstream" }

/-- Porcelain output of a two-worktree repository, used as a witness input. -/
def porcelainTwo : String :=
  "worktree /a\nHEAD 1111\nbranch refs/heads/main\n\nworktree /b\nHEAD 2222\nbranch refs/heads/f/x"

/-! ## Theorems -/

/-- C9: when the worktree-list query fails (not a repository, command error,
modelled by `none`) or produces empty output, `getWorktrees` returns the empty
list rather than raising; callers observe "nothing found" as `[]`. -/
theorem getWorktrees_failure_empty :
    getWorktrees none = [] ∧ ∀ s : String, jsTrim s = "" → getWorktrees (some s) = [] := by
  refine ⟨rfl, ?_⟩
  intro s hs
  simp [getWorktrees, parseWorktreeList, hs]

theorem getWorktrees_failure_empty_witness :
    getWorktrees none = [] ∧ (jsTrim "  \n" = "" ∧ getWorktrees (some "  \n") = []) :=
  ⟨getWorktrees_failure_empty.1, by decide,
   getWorktrees_failure_empty.2 "  \n" (by decide)⟩

/-- C2: whenever the resolved target record has `isMain = true`, the remove
handler refuses (a fatal precondition failure) regardless of the force flag,
and issues no removal side effect. -/
theorem removeHandler_main_refused (pathOrBranch : String) (force : Bool)
    (env : RemoveEnv) (wt : WorktreeInfo)
    (hrepo : env.insideWorkTree = true)
    (hres : resolveRemoveTarget pathOrBranch env = .found wt)
    (hmain : wt.isMain = true) :
    removeWorktreeHandler pathOrBranch force env = (.mainRefused, []) := by
  simp [removeWorktreeHandler, hrepo, hres, removeResolvedWorktree, hmain]

theorem removeHandler_main_refused_witness :
    removeWorktreeHandler "" true removeEnvMain = (.mainRefused, []) ∧
    removeWorktreeHandler "" false removeEnvMain = (.mainRefused, []) :=
  ⟨removeHandler_main_refused "" true removeEnvMain wtMainRecord rfl rfl rfl,
   removeHandler_main_refused "" false removeEnvMain wtMainRecord rfl rfl rfl⟩

/-- C1 counterexample: at the concrete handle `0123abcd`, a successful restore
issues only `git stash apply 0123abcd` — the claimed drop step never occurs. -/
theorem applyAndDropStash_no_drop_counterexample :
    (applyAndDropStash "0123abcd" (.ok ())).1 = true ∧
    (applyAndDropStash "0123abcd" (.ok ())).2 = [.applyByHash "0123abcd"] ∧
    ¬ ∃ c ∈ (applyAndDropStash "0123abcd" (.ok ())).2, c.isDrop = true := by
  refine ⟨rfl, rfl, ?_⟩
  rintro ⟨c, hc, hd⟩
  simp [applyAndDropStash] at hc
  subst hc
  simp [StashRestoreCmd.isDrop] at hd

/-- C1 (amended): the restore operation issues exactly one stash command,
`git stash apply` on the given hash; every command it issues addresses the
stash only through that hash, none is positional and none is a drop; success
is reported exactly when the apply succeeds. -/
theorem applyAndDropStash_hash_only (stashHash : String) (applyResult : Except Unit Unit) :
    (applyAndDropStash stashHash applyResult).2 = [.applyByHash stashHash] ∧
    ((applyAndDropStash stashHash applyResult).2.all
      (fun c => c.addressesHash stashHash) = true) ∧
    ((applyAndDropStash stashHash applyResult).2.all
      (fun c => !c.isPositional) = true) ∧
    ((applyAndDropStash stashHash applyResult).2.all
      (fun c => !c.isDrop) = true) ∧
    ((applyAndDropStash stashHash applyResult).1 = true ↔ applyResult = .ok ()) := by
  cases applyResult with
  | ok u =>
    cases u
    simp [applyAndDropStash, StashRestoreCmd.addressesHash,
      StashRestoreCmd.isPositional, StashRestoreCmd.isDrop]
  | error u =>
    cases u
    simp [applyAndDropStash, StashRestoreCmd.addressesHash,
      StashRestoreCmd.isPositional, StashRestoreCmd.isDrop]

theorem applyAndDropStash_hash_only_witness :
    (applyAndDropStash "0123abcd" (.error ())).1 = false :=
  by
    have h := (applyAndDropStash_hash_only "0123abcd" (.error ())).2.2.2.2
    cases hv : (applyAndDropStash "0123abcd" (.error ())).1 with
    | false => rfl
    | true => exact absurd (h.mp hv) (by simp)

/-- C4 counterexample: `stashChanges` returns the same value (`null`) for a
clean worktree and for a dirty worktree whose `git stash create` prints no
hash — the "no rescue possible" failure is conflated with `Clean`. -/
theorem stashChanges_conflates_clean_and_failure :
    (stashChanges stashEnvCleanW none).1 = none ∧
    (stashChanges stashEnvNoHashW none).1 = none ∧
    (stashChanges stashEnvNoHashW none).1 = (stashChanges stashEnvCleanW none).1 := by
  refine ⟨rfl, rfl, rfl⟩

/-- C4 (amended): `stashChanges` returns `null` for a clean worktree, the
trimmed hash when the worktree is dirty and every step succeeds with a
non-empty `stash create` output, and `null` again — the very value that means
`Clean` — when the create step yields no hash despite detected changes; that
no-hash branch returns silently, so the failure is not surfaced to the caller
in any way. -/
theorem stashChanges_result_characterization
    (e1 e2 e3 : StashEnv) (m1 m2 m3 : Option String)
    (s1 : String) (h1 : e1.statusResult = .ok s1) (h1c : jsTrim s1 = "")
    (s2 : String) (h2 : e2.statusResult = .ok s2) (h2d : jsTrim s2 ≠ "")
    (h2a : e2.addResult = .ok ()) (out2 : String) (h2cr : e2.createResult = .ok out2)
    (h2e : jsTrim out2 = "")
    (s3 : String) (h3 : e3.statusResult = .ok s3) (h3d : jsTrim s3 ≠ "")
    (h3a : e3.addResult = .ok ()) (out3 : String) (h3cr : e3.createResult = .ok out3)
    (h3e : jsTrim out3 ≠ "") (h3r : e3.resetResult = .ok ()) (h3cl : e3.cleanResult = .ok ()) :
    (stashChanges e1 m1).1 = none ∧
    (stashChanges e2 m2).1 = none ∧
    (stashChanges e2 m2).1 = (stashChanges e1 m1).1 ∧
    (stashChanges e3 m3).1 = some (jsTrim out3) := by
  refine ⟨?_, ?_, ?_, ?_⟩ <;>
    simp [stashChanges, h1, h1c, h2, h2d, h2a, h2cr, h2e, h3, h3d, h3a, h3cr, h3e,
      h3r, h3cl]

theorem stashChanges_result_characterization_witness :
    (stashChanges stashEnvCleanW none).1 = none ∧
    (stashChanges stashEnvNoHashW none).1 = none ∧
    (stashChanges stashEnvNoHashW none).1 = (stashChanges stashEnvCleanW none).1 ∧
    (stashChanges stashEnvOkW none).1 = some "deadbeef" := by
  have h := stashChanges_result_characterization
    stashEnvCleanW stashEnvNoHashW stashEnvOkW none none none
    "" rfl (by decide)
    " M file.txt" rfl (by decide) rfl "" rfl (by decide)
    " M file.txt" rfl (by decide) rfl "deadbeef\n" rfl (by decide) rfl rfl
  have he : jsTrim "deadbeef\n" = "deadbeef" := by decide
  exact ⟨h.1, h.2.1, h.2.2.1, by rw [h.2.2.2, he]⟩

/-- C10: `stashChanges` performs the destructive steps (hard reset and
untracked-file clean) only after `git stash create` has returned a non-empty
hash; when the tree is dirty but the add or create step errors, or the create
step yields no hash, it returns the failure value `null` without issuing the
reset or the clean. -/
theorem stashChanges_destructive_only_after_hash (env : StashEnv) (message : Option String) :
    ((StashStep.resetHard ∈ (stashChanges env message).2 ∨
      StashStep.cleanUntracked ∈ (stashChanges env message).2) →
      ∃ out, env.createResult = .ok out ∧ jsTrim out ≠ "") ∧
    (∀ statusOutput, env.statusResult = .ok statusOutput → jsTrim statusOutput ≠ "" →
      (env.addResult = .error () ∨ env.createResult = .error () ∨
        (∃ out, env.createResult = .ok out ∧ jsTrim out = "")) →
      (stashChanges env message).1 = none ∧
      StashStep.resetHard ∉ (stashChanges env message).2 ∧
      StashStep.cleanUntracked ∉ (stashChanges env message).2) := by
  obtain ⟨st, ad, cr, rs, cl⟩ := env
  constructor
  · intro hmem
    cases st with
    | error u => simp [stashChanges] at hmem
    | ok so =>
      by_cases hso : jsTrim so = ""
      · simp [stashChanges, hso] at hmem
      · cases ad with
        | error u => simp [stashChanges, hso] at hmem
        | ok u =>
          cases cr with
          | error u2 => simp [stashChanges, hso] at hmem
          | ok out =>
            by_cases hout : jsTrim out = ""
            · simp [stashChanges, hso, hout] at hmem
            · exact ⟨out, rfl, hout⟩
  · intro so hst hso hbad
    simp only at hst
    subst hst
    rcases hbad with had | hcr | ⟨out, hcro, houte⟩
    · simp only at had
      subst had
      simp [stashChanges, hso]
    · simp only at hcr
      subst hcr
      cases ad with
      | error u => simp [stashChanges, hso]
      | ok u => simp [stashChanges, hso]
    · simp only at hcro
      subst hcro
      cases ad with
      | error u => simp [stashChanges, hso]
      | ok u => simp [stashChanges, hso, houte]

theorem stashChanges_destructive_only_after_hash_witness :
    (stashChanges stashEnvNoHashW none).1 = none ∧
    StashStep.resetHard ∉ (stashChanges stashEnvNoHashW none).2 ∧
    StashStep.cleanUntracked ∉ (stashChanges stashEnvNoHashW none).2 :=
  (stashChanges_destructive_only_after_hash stashEnvNoHashW none).2 " M file.txt" rfl
    (by decide) (Or.inr (Or.inr ⟨"", rfl, by decide⟩))

/-- C7: on records whose real paths are pairwise distinct, and for a token
whose resolved path exists (so `realpath` succeeds on it), `findWorktreeByPath`
returns a record exactly when the token's real path equals that record's real
path — resolution is invariant under symlinks, as both sides are compared
through `realpath`. -/
theorem findWorktreeByPath_realpath_iff (fs : FsEnv) (wts : List WorktreeInfo)
    (tok rt : String)
    (hreal : fs.realpath (fs.resolvePath tok) = some rt)
    (hnodup : (wts.map (fun wt => worktreeRealPath fs wt.path)).Nodup) :
    ∀ r ∈ wts, (findWorktreeByPath fs wts tok = some r ↔ worktreeRealPath fs r.path = rt) := by
  have htarget : resolveTargetPath fs tok = rt := by
    simp [resolveTargetPath, hreal]
  intro r hr
  constructor
  · intro hfind
    have hb := List.find?_some hfind
    rw [htarget] at hb
    exact eq_of_beq hb
  · intro heq
    cases hfind : findWorktreeByPath fs wts tok with
    | none =>
      exfalso
      have hnone := List.find?_eq_none.mp hfind r hr
      apply hnone
      rw [htarget, heq]
      exact beq_self_eq_true rt
    | some r' =>
      have hr' : r' ∈ wts := List.mem_of_find?_eq_some hfind
      have hb := List.find?_some hfind
      rw [htarget] at hb
      have h1 : worktreeRealPath fs r'.path = rt := eq_of_beq hb
      have : r' = r :=
        List.inj_on_of_nodup_map hnodup hr' hr (by rw [h1, heq])
      rw [this]

theorem findWorktreeByPath_realpath_iff_witness :
    findWorktreeByPath fsSym [wtVarRecord] "/private/var/wt" = some wtVarRecord ∧
    findWorktreeByPath fsSym [wtVarRecord] "/var/wt" = some wtVarRecord :=
  ⟨(findWorktreeByPath_realpath_iff fsSym [wtVarRecord] "/private/var/wt" "/private/var/wt"
      rfl (by simp) wtVarRecord (by simp)).mpr rfl,
   (findWorktreeByPath_realpath_iff fsSym [wtVarRecord] "/var/wt" "/private/var/wt"
      rfl (by simp) wtVarRecord (by simp)).mpr rfl⟩

/-- C6: the code contradicts its own inline documentation.  The `master`
fallback lives in the catch handler of the `main` tracking query, but that
query is issued with `reject: false`, so "main has no upstream" resolves
instead of throwing and the catch never runs: in a repository where `main`
has no upstream but `master` tracks the remote `upstream` (and both `origin`
and `upstream` are configured), the function returns `origin` from the
preferred-name tier instead of `master`'s tracking remote. -/
theorem getUpstreamRemote_master_fallback_dead :
    getUpstreamRemote upstreamEnvMasterTracked = "origin" ∧
    remoteFromTrackingRef "upstream/master" = some "upstream" ∧
    upstreamEnvMasterTracked.masterUpstream =
      .ok { exitCode := 0, stdout := "upstream/master" } := by
  refine ⟨?_, ?_, rfl⟩
  · rfl
  · rfl

/-- C8 counterexample: for the token `/repo/bare-wt`, which stats to an
existing directory that matches no known worktree path but carries an embedded
version-control marker, the remove handler's resolution reports `notFound`,
while the cd/open resolution of the very same situation synthesizes the
minimal ad-hoc record — so removal does not resolve via the §4.2 synthesis
step. -/
theorem removeResolve_no_marker_synthesis_counterexample :
    resolveRemoveTarget "/repo/bare-wt" removeEnvBare = .notFound ∧
    resolveCdTarget "/repo/bare-wt" cdEnvBare = .found (syntheticWorktree "/repo/bare-wt") := by
  constructor
  · rfl
  · rfl

/-- C8 (amended): the remove handler resolves a directory token that matches
no known worktree path by falling through to exact branch matching and then
`notFound`; it never consults an embedded version-control marker (its
environment carries none).  Only the cd/open resolvers synthesize the minimal
ad-hoc record in that situation. -/
theorem removeResolve_falls_back_to_branch (tok : String) (env : RemoveEnv) (cenv : CdEnv)
    (htok : tok ≠ "") (hstat : env.statTok = .dir)
    (hpath : findWorktreeByPath env.fs env.worktrees tok = none)
    (hcstat : cenv.statTok = .dir)
    (hcpath : findWorktreeByPath cenv.fs cenv.worktrees tok = none)
    (hmark : cenv.hasGitMarker = true) :
    resolveRemoveTarget tok env =
      (match findWorktreeByBranch env.worktrees tok with
       | some wt => .found wt
       | none => .notFound) ∧
    resolveCdTarget tok cenv = .found (syntheticWorktree (cenv.fs.resolvePath tok)) := by
  constructor
  · simp [resolveRemoveTarget, htok, hstat, hpath]
  · simp [resolveCdTarget, htok, hcstat, hcpath, hmark]

theorem removeResolve_falls_back_to_branch_witness :
    resolveRemoveTarget "/repo/bare-wt" removeEnvBare =
      (match findWorktreeByBranch removeEnvBare.worktrees "/repo/bare-wt" with
       | some wt => .found wt
       | none => .notFound) ∧
    resolveCdTarget "/repo/bare-wt" cdEnvBare =
      .found (syntheticWorktree (cdEnvBare.fs.resolvePath "/repo/bare-wt")) :=
  removeResolve_falls_back_to_branch "/repo/bare-wt" removeEnvBare cdEnvBare
    (by decide) rfl rfl rfl rfl rfl

theorem applyLine_isMain (i : WorktreeInfo) (l : String) :
    (applyLine i l).isMain = i.isMain := by
  unfold applyLine
  split_ifs <;> rfl

theorem foldl_applyLine_isMain (ls : List String) :
    ∀ i : WorktreeInfo, (ls.foldl applyLine i).isMain = i.isMain := by
  induction ls with
  | nil => intro i; rfl
  | cons a as ih => intro i; rw [List.foldl_cons, ih, applyLine_isMain]

theorem parseBlock_isMain (f : Bool) (b : String) : (parseBlock f b).isMain = f := by
  unfold parseBlock
  rw [foldl_applyLine_isMain]
  rfl

theorem parseBlocks_false_isMain (bs : List String) :
    ∀ w ∈ parseBlocks false bs, w.isMain = false := by
  induction bs with
  | nil => intro w hw; simp [parseBlocks] at hw
  | cons b rest ih =>
    intro w hw
    simp only [parseBlocks] at hw
    by_cases hp : (parseBlock false b).path ≠ ""
    · rw [if_pos hp] at hw
      rcases List.mem_cons.mp hw with h | h
      · rw [h]; exact parseBlock_isMain false b
      · exact ih w h
    · rw [if_neg hp] at hw
      exact ih w hw

/-- C3: whenever `getWorktrees` parses a non-empty record list from porcelain
output whose first block carries a `worktree ` line (as `git worktree list
--porcelain` output always does), exactly one record has `isMain = true`, and
it is the record parsed from the first blank-line-separated block. -/
theorem getWorktrees_unique_main (out : String)
    (hfirst : ∀ b, (worktreeBlocks out).head? = some b → (parseBlock true b).path ≠ "") :
    parseWorktreeList out ≠ [] →
      (parseWorktreeList out).countP (fun w => w.isMain) = 1 ∧
      ∃ b bs, worktreeBlocks out = b :: bs ∧
        (parseWorktreeList out).head? = some (parseBlock true b) ∧
        (parseBlock true b).isMain = true := by
  intro hne
  by_cases htrim : jsTrim out = ""
  · exact absurd (by simp [parseWorktreeList, htrim]) hne
  · have hpw : parseWorktreeList out = parseBlocks true (worktreeBlocks out) := by
      simp [parseWorktreeList, htrim]
    rw [hpw] at hne ⊢
    cases hbs : worktreeBlocks out with
    | nil => rw [hbs] at hne; simp [parseBlocks] at hne
    | cons b bs =>
      have hpath : (parseBlock true b).path ≠ "" := hfirst b (by rw [hbs]; rfl)
      have hexp : parseBlocks true (b :: bs) =
          parseBlock true b :: parseBlocks false bs := by
        simp [parseBlocks, hpath]
      rw [hexp]
      refine ⟨?_, b, bs, rfl, rfl, parseBlock_isMain true b⟩
      rw [List.countP_cons]
      have h0 : (parseBlocks false bs).countP (fun w => w.isMain) = 0 := by
        rw [List.countP_eq_zero]
        intro a ha
        simp [parseBlocks_false_isMain bs a ha]
      rw [h0]
      simp [parseBlock_isMain]

theorem getWorktrees_unique_main_witness :
    (parseWorktreeList porcelainTwo).countP (fun w => w.isMain) = 1 ∧
    ∃ b bs, worktreeBlocks porcelainTwo = b :: bs ∧
      (parseWorktreeList porcelainTwo).head? = some (parseBlock true b) ∧
      (parseBlock true b).isMain = true := by
  refine getWorktrees_unique_main porcelainTwo ?_ ?_
  · intro b hb
    have h0 : (worktreeBlocks porcelainTwo).head? =
        some "worktree /a\nHEAD 1111\nbranch refs/heads/main" := by decide
    rw [h0] at hb
    injection hb with hb'
    rw [← hb']
    decide
  · decide

theorem takeWhile_app_cons {α : Type} (q : α → Bool) :
    ∀ (h : List α) (c : α) (t : List α), (∀ x ∈ h, q x = true) → q c = false →
      (h ++ c :: t).takeWhile q = h := by
  intro h
  induction h with
  | nil =>
    intro c t _ hc
    simp [List.takeWhile_cons, hc]
  | cons a as ih =>
    intro c t H hc
    have ha : q a = true := H a (by simp)
    simp only [List.cons_append, List.takeWhile_cons, ha, if_true]
    rw [ih c t (fun x hx => H x (by simp [hx])) hc]

theorem gitlabHostTest_iff (l : List Char) :
    gitlabHostTest l = true ↔
      ∃ rest, l = 'g' :: 'i' :: 't' :: 'l' :: 'a' :: 'b' :: '.' :: rest ∧
        rest ≠ [] ∧ ∀ c ∈ rest, ('a' ≤ c ∧ c ≤ 'z') ∨ c = '.' := by
  unfold gitlabHostTest
  constructor
  · intro hyp
    rw [Bool.and_eq_true] at hyp
    obtain ⟨hpre, hrest⟩ := hyp
    obtain ⟨t, ht⟩ := List.isPrefixOf_iff_prefix.mp hpre
    subst ht
    refine ⟨t, rfl, ?_, ?_⟩
    · simp only [List.cons_append, List.nil_append, List.drop_succ_cons,
        List.drop_zero, Bool.and_eq_true, bne_iff_ne, ne_eq] at hrest
      exact fun he => hrest.1 (by rw [he]; rfl)
    · intro c hc
      simp only [List.cons_append, List.nil_append, List.drop_succ_cons,
        List.drop_zero, Bool.and_eq_true, List.all_eq_true] at hrest
      have := hrest.2 c hc
      simpa [Bool.or_eq_true, Bool.and_eq_true, decide_eq_true_eq, beq_iff_eq] using this
  · rintro ⟨rest, rfl, hne, hall⟩
    rw [Bool.and_eq_true]
    constructor
    · rw [List.isPrefixOf_iff_prefix]
      exact ⟨rest, rfl⟩
    · simp only [List.drop_succ_cons, List.drop_zero, Bool.and_eq_true, bne_iff_ne, ne_eq,
        List.length_eq_zero, List.all_eq_true]
      refine ⟨hne, ?_⟩
      intro c hc
      have := hall c hc
      simpa [Bool.or_eq_true, Bool.and_eq_true, decide_eq_true_eq, beq_iff_eq] using this

/-- C5 counterexample: the hostname `gitlab.my-host.com` begins with `gitlab.`
and is correctly extracted from the scp-style remote URL, yet the detector
returns unknown (`null`) because the regex `^gitlab\.[a-z.]+$` rejects the
dash in the remainder of the host. -/
theorem detectGitProvider_gitlab_dash_counterexample :
    getRemoteHostname "git@gitlab.my-host.com:group/repo.git" = some "gitlab.my-host.com" ∧
    startsWithStr "gitlab.my-host.com" "gitlab." = true ∧
    detectGitProvider (.ok "git@gitlab.my-host.com:group/repo.git") = none := by
  refine ⟨?_, ?_, ?_⟩ <;> decide

/-- C5 (amended): for scp-style remote URLs — which the code recognises only
with the literal user `git@` — the detector classifies the lowercased hostname
before the colon; the GitHub provider is returned exactly for `github.com`;
the GitLab provider exactly for `gitlab.com` or a host that is `gitlab.`
followed by a non-empty run of lowercase letters and dots (so `gitlab.*` hosts
containing dashes or digits are not recognised); every other hostname yields
unknown, and so does every URL whose hostname cannot be parsed. -/
theorem detectGitProvider_classification :
    (∀ (h p : List Char), h ≠ [] → (∀ c ∈ h, c ≠ ':') →
      detectGitProviderOfUrl (String.mk ('g' :: 'i' :: 't' :: '@' :: (h ++ ':' :: p))) =
        classifyHostname (String.mk (h.map Char.toLower))) ∧
    (∀ host : String,
      (classifyHostname host = some "gh" ↔ host = "github.com") ∧
      (classifyHostname host = some "glab" ↔
        (host = "gitlab.com" ∨
          ∃ rest, host.data = 'g' :: 'i' :: 't' :: 'l' :: 'a' :: 'b' :: '.' :: rest ∧
            rest ≠ [] ∧ ∀ c ∈ rest, ('a' ≤ c ∧ c ≤ 'z') ∨ c = '.')) ∧
      (classifyHostname host = none ∨ classifyHostname host = some "gh" ∨
        classifyHostname host = some "glab")) ∧
    (∀ url : String, getRemoteHostname url = none → detectGitProviderOfUrl url = none) := by
  refine ⟨?_, ?_, ?_⟩
  · intro h p h1 h2
    have htw : (h ++ ':' :: p).takeWhile (fun c => c != ':') = h := by
      refine takeWhile_app_cons _ h ':' p ?_ (by decide)
      intro x hx
      simp [bne_iff_ne]
      exact h2 x hx
    have hscp : scpHostname (h ++ ':' :: p) = some h := by
      unfold scpHostname
      rw [htw]
      rw [if_pos]
      constructor
      · simp [List.length_eq_zero, h1]
      · simp only [List.length_append, List.length_cons]
        omega
    have hcore : getRemoteHostnameCore ('g' :: 'i' :: 't' :: '@' :: (h ++ ':' :: p)) =
        some (h.map Char.toLower) := by
      unfold getRemoteHostnameCore
      rw [show hasGitAtPre ('g' :: 'i' :: 't' :: '@' :: (h ++ ':' :: p)) = true from rfl]
      simp only [if_true, List.drop_succ_cons, List.drop_zero]
      rw [hscp]
    unfold detectGitProviderOfUrl getRemoteHostname
    rw [show (String.mk ('g' :: 'i' :: 't' :: '@' :: (h ++ ':' :: p))).data =
        'g' :: 'i' :: 't' :: '@' :: (h ++ ':' :: p) from rfl]
    rw [hcore]
    rfl
  · intro host
    have hgl : (host = "gitlab.com" ∨
        ∃ rest, host.data = 'g' :: 'i' :: 't' :: 'l' :: 'a' :: 'b' :: '.' :: rest ∧
          rest ≠ [] ∧ ∀ c ∈ rest, ('a' ≤ c ∧ c ≤ 'z') ∨ c = '.') ↔
        (host = "gitlab.com" ∨ gitlabHostTest host.data = true) :=
      or_congr Iff.rfl (gitlabHostTest_iff host.data).symm
    refine ⟨?_, ?_, ?_⟩
    · unfold classifyHostname
      split_ifs with hc1 hc2
      · simp [hc1]
      · simp [hc1]
      · simp [hc1]
    · rw [hgl]
      unfold classifyHostname
      split_ifs with hc1 hc2
      · subst hc1
        constructor
        · intro hx; exact absurd hx (by decide)
        · intro hx; exact absurd hx (by decide)
      · simp [hc2]
      · simp [hc2]
    · unfold classifyHostname
      split_ifs <;> simp
  · intro url hnone
    unfold detectGitProviderOfUrl
    rw [hnone]

theorem detectGitProvider_classification_witness :
    detectGitProviderOfUrl
        (String.mk ('g' :: 'i' :: 't' :: '@' :: ("gitlab.com".data ++ ':' :: "x.git".data))) =
      classifyHostname (String.mk ("gitlab.com".data.map Char.toLower)) ∧
    detectGitProviderOfUrl "git@gitlab.com:x.git" = some "glab" :=
  ⟨detectGitProvider_classification.1 "gitlab.com".data "x.git".data (by decide) (by decide),
   by decide⟩

end Worktree
